import Mathlib

/-!
# Verification of the session-bridged HTTP/MCP transport adapter

This development embeds, in Lean, the behaviourally relevant parts of the
repository's four server variants:

* the command-line-style request descriptor parser (`parseCurlCommand`),
  identical in `part_000`, `part_001` and `part_002`;
* the `/mcp` route handlers (POST classification, DELETE termination) of the
  canonical variant `src/index.ts` and of the divergent variant `part_000`;
* the push-callback-to-future response sink adapters of `src/index.ts`,
  `part_001` and `part_002`.

JavaScript strings are modelled as Lean `String` / `List Char`; JavaScript
records (used for header maps and the session registry) are modelled as
association lists with update-or-append insertion, which preserves the
key-uniqueness and insertion-order semantics of JS objects.  The platform
builtin `JSON.parse` is external to the repository; the parser is therefore
parameterised over an abstract `jp : String → Option Json`, and a concrete
model `jsonParseModel` (faithful on the JSON fragment exercised here) is used
to evaluate concrete inputs.  Promises are modelled by `Option` states whose
`resolve` is a no-op once the state is `some` — the first-resolution-wins
semantics of ECMAScript promises.
-/

/-! ## Characters and string utilities used by the source -/

/-- The character class matched by the JavaScript regex `\s`
(whitespace, as used in `curlCommand.split(/\s+/)`). -/
def isWsChar (c : Char) : Bool :=
  c.toNat == 32 || c.toNat == 9 || c.toNat == 10 || c.toNat == 11 ||
  c.toNat == 12 || c.toNat == 13 || c.toNat == 160 || c.toNat == 5760 ||
  (8192 ≤ c.toNat && c.toNat ≤ 8202) || c.toNat == 8232 || c.toNat == 8233 ||
  c.toNat == 8239 || c.toNat == 8287 || c.toNat == 12288 || c.toNat == 65279

/-- A single or double quote character (the class `['"]` in the source's
regexes).  Written via code points to keep the source text plain. -/
def isQuoteChar (c : Char) : Bool :=
  c.toNat == 39 || c.toNat == 34

mutual

/-- Segment-accumulating half of the JavaScript `split(/\s+/)` model:
we are inside a (possibly empty) segment whose characters so far are
`cur` (reversed). -/
def jsSplitWsGo : List Char → List Char → List String
  | [], cur => [String.mk cur.reverse]
  | c :: cs, cur =>
    if isWsChar c then String.mk cur.reverse :: jsSplitWsSkip cs
    else jsSplitWsGo cs (c :: cur)

/-- Whitespace-run-skipping half of the `split(/\s+/)` model: a separator
match is in progress; when it ends a new segment starts. -/
def jsSplitWsSkip : List Char → List String
  | [] => [""]
  | c :: cs => if isWsChar c then jsSplitWsSkip cs else jsSplitWsGo cs [c]

end

/-- Model of `s.split(/\s+/)` of ECMAScript: splits on maximal nonempty whitespace
runs; a leading (trailing) run contributes a leading (trailing) empty
segment, and the empty string yields `[""]`. -/
def jsSplitWs (s : String) : List String :=
  jsSplitWsGo s.toList []

/-- Model of `s.replace(/['"]/g, '')`: removes every single- and double-quote
character, wherever it occurs in the string (a global strip). -/
def stripAllQuotes (s : String) : String :=
  String.mk (s.toList.filter (fun c => !isQuoteChar c))

/-- Drops the final character if it is a quote (the `['"]$` alternative of
the edge-stripping regex). -/
def dropLastQuote (cs : List Char) : List Char :=
  match cs.reverse with
  | [] => []
  | c :: t => if isQuoteChar c then t.reverse else cs

/-- Model of `s.replace(/^['"]|['"]$/g, '')`: removes at most one leading and at most
one trailing quote character (one layer of wrapping quotes). -/
def stripEdgeQuotes (s : String) : String :=
  let cs := s.toList
  let cs1 := match cs with
    | [] => []
    | c :: t => if isQuoteChar c then t else cs
  String.mk (dropLastQuote cs1)

/-- Model of `String.prototype.trim`: drop whitespace characters from both ends. -/
def jsTrim (s : String) : String :=
  String.mk ((s.toList.dropWhile isWsChar).reverse.dropWhile isWsChar).reverse

/-- ASCII model of `String.prototype.toUpperCase` (the only letters the
program's method tokens contain are ASCII). -/
def jsToUpper (s : String) : String :=
  String.mk (s.toList.map Char.toUpper)

/-- Split on `':'` over the character model (JavaScript `String.split` with a
one-character separator: every occurrence splits, empty pieces kept). -/
def splitColonGo : List Char → List Char → List String
  | [], cur => [String.mk cur.reverse]
  | c :: cs, cur =>
    if c.toNat == 58 then String.mk cur.reverse :: splitColonGo cs []
    else splitColonGo cs (c :: cur)

/-- Model of `s.split(':')`. -/
def jsSplitColon (s : String) : List String :=
  splitColonGo s.toList []

/-- Model of `parts.join(':')`. -/
def jsJoinColon : List String → String
  | [] => ""
  | [s] => s
  | s :: rest => s ++ ":" ++ jsJoinColon rest

/-- Model of `part.startsWith('-')`. -/
def jsStartsWithDash (s : String) : Bool :=
  match s.toList with
  | [] => false
  | c :: _ => c.toNat == 45

/-- JavaScript record update `obj[k] = v` on an association-list model:
an existing key keeps its position and gets the new value, a new key is
appended (JS object insertion order). -/
def insertRecord : List (String × String) → String → String → List (String × String)
  | [], k, v => [(k, v)]
  | (k0, v0) :: rest, k, v =>
    if k0 = k then (k0, v) :: rest else (k0, v0) :: insertRecord rest k v

/-- Model of `Object.assign(base, ext)` / object spread `{...base, ...ext}`:
every key of `ext` is written into `base` in order. -/
def mergeRecords (base ext : List (String × String)) : List (String × String) :=
  ext.foldl (fun acc kv => insertRecord acc kv.1 kv.2) base

/-! ## A minimal JSON value type and a model of the `JSON.parse` builtin -/

/-- JSON values, as produced by a successful `JSON.parse`. -/
inductive Json where
  | null : Json
  | bool (b : Bool) : Json
  | num (n : Int) : Json
  | str (s : String) : Json
  | arr (xs : List Json) : Json
  | obj (kvs : List (String × Json)) : Json

/-- JSON insignificant whitespace. -/
def jpSkipWs : List Char → List Char
  | [] => []
  | c :: cs =>
    if c.toNat == 32 || c.toNat == 9 || c.toNat == 10 || c.toNat == 13 then
      jpSkipWs cs
    else c :: cs

/-- Parse a JSON string body (after the opening quote); escape sequences are
rejected, which is conservative and unexercised by this repository. -/
def jpStr : List Char → Option (String × List Char) :=
  go []
where
  go (acc : List Char) : List Char → Option (String × List Char)
    | [] => none
    | c :: cs =>
      if c.toNat == 34 then some (String.mk acc.reverse, cs)
      else if c.toNat == 92 then none
      else go (c :: acc) cs

/-- Parse a run of decimal digits. -/
def jpDigits : List Char → List Char × List Char
  | [] => ([], [])
  | c :: cs =>
    if 48 ≤ c.toNat && c.toNat ≤ 57 then
      let (ds, rest) := jpDigits cs
      (c :: ds, rest)
    else ([], c :: cs)

/-- Digit list to natural number. -/
def jpNatOfDigits : List Char → Nat → Nat
  | [], acc => acc
  | c :: cs, acc => jpNatOfDigits cs (acc * 10 + (c.toNat - 48))

/-- Parse a JSON integer (fractions and exponents are rejected by this
model; no claim exercises them). -/
def jpNum (cs : List Char) : Option (Int × List Char) :=
  match cs with
  | [] => none
  | c :: cs1 =>
    if c.toNat == 45 then
      match jpDigits cs1 with
      | ([], _) => none
      | (ds, rest) => some (-(jpNatOfDigits ds 0 : Int), rest)
    else
      match jpDigits (c :: cs1) with
      | ([], _) => none
      | (ds, rest) => some ((jpNatOfDigits ds 0 : Int), rest)

mutual

/-- Fuel-indexed JSON value parse. -/
def jpVal : Nat → List Char → Option (Json × List Char)
  | 0, _ => none
  | fuel + 1, cs =>
    match jpSkipWs cs with
    | [] => none
    | c :: cs1 =>
      if c.toNat == 110 then
        match cs1 with
        | u :: l1 :: l2 :: rest =>
          if u.toNat == 117 && l1.toNat == 108 && l2.toNat == 108 then
            some (Json.null, rest)
          else none
        | _ => none
      else if c.toNat == 116 then
        match cs1 with
        | r :: u :: e :: rest =>
          if r.toNat == 114 && u.toNat == 117 && e.toNat == 101 then
            some (Json.bool true, rest)
          else none
        | _ => none
      else if c.toNat == 102 then
        match cs1 with
        | a :: l :: s :: e :: rest =>
          if a.toNat == 97 && l.toNat == 108 && s.toNat == 115 && e.toNat == 101 then
            some (Json.bool false, rest)
          else none
        | _ => none
      else if c.toNat == 34 then
        match jpStr cs1 with
        | some (s, rest) => some (Json.str s, rest)
        | none => none
      else if c.toNat == 91 then
        jpArr fuel (jpSkipWs cs1)
      else if c.toNat == 123 then
        jpObj fuel (jpSkipWs cs1)
      else
        match jpNum (c :: cs1) with
        | some (n, rest) => some (Json.num n, rest)
        | none => none

/-- Fuel-indexed JSON array elements parse (after `[`, whitespace skipped). -/
def jpArr : Nat → List Char → Option (Json × List Char)
  | 0, _ => none
  | fuel + 1, cs =>
    match cs with
    | c :: cs1 =>
      if c.toNat == 93 then some (Json.arr [], cs1)
      else
        (jpVal fuel cs).bind fun (v, rest) =>
          jpArrTail fuel rest [v]
    | [] => none

/-- Fuel-indexed JSON array continuation: expects `,` or `]`. -/
def jpArrTail : Nat → List Char → List Json → Option (Json × List Char)
  | 0, _, _ => none
  | fuel + 1, cs, acc =>
    match jpSkipWs cs with
    | c :: cs1 =>
      if c.toNat == 93 then some (Json.arr acc.reverse, cs1)
      else if c.toNat == 44 then
        (jpVal fuel cs1).bind fun (v, rest) =>
          jpArrTail fuel rest (v :: acc)
      else none
    | [] => none

/-- Fuel-indexed JSON object members parse (after `{`, whitespace skipped). -/
def jpObj : Nat → List Char → Option (Json × List Char)
  | 0, _ => none
  | fuel + 1, cs =>
    match cs with
    | c :: cs1 =>
      if c.toNat == 125 then some (Json.obj [], cs1)
      else jpMember fuel (c :: cs1) []
    | [] => none

/-- Fuel-indexed JSON object member parse: a quoted key, `:`, a value. -/
def jpMember : Nat → List Char → List (String × Json) → Option (Json × List Char)
  | 0, _, _ => none
  | fuel + 1, cs, acc =>
    match jpSkipWs cs with
    | c :: cs1 =>
      if c.toNat == 34 then
        (jpStr cs1).bind fun (k, rest1) =>
          match jpSkipWs rest1 with
          | d :: rest2 =>
            if d.toNat == 58 then
              (jpVal fuel rest2).bind fun (v, rest3) =>
                jpObjTail fuel rest3 ((k, v) :: acc)
            else none
          | [] => none
      else none
    | [] => none

/-- Fuel-indexed JSON object continuation: expects `,` or the closing brace. -/
def jpObjTail : Nat → List Char → List (String × Json) → Option (Json × List Char)
  | 0, _, _ => none
  | fuel + 1, cs, acc =>
    match jpSkipWs cs with
    | c :: cs1 =>
      if c.toNat == 125 then some (Json.obj acc.reverse, cs1)
      else if c.toNat == 44 then jpMember fuel cs1 acc
      else none
    | [] => none

end

/-- Modelled from the spec: the ECMAScript `JSON.parse` builtin consumed by
the repository (the repository itself contains no JSON implementation).  The
model is exact on the JSON fragment the claims exercise — `null`, booleans,
integers, escape-free strings, arrays, objects — and rejects the rest; the
general theorems below are parameterised over an arbitrary
`jp : String → Option Json` and so do not depend on this model. -/
def jsonParseModel (s : String) : Option Json :=
  match jpVal (s.length + 1) s.toList with
  | some (v, rest) => if (jpSkipWs rest).isEmpty then some v else none
  | none => none

/-! ## The request descriptor parser (`parseCurlCommand`)

Source: `parseCurlCommand` in `part_000` (lines 234–272), byte-identical in
`part_001` (lines 65–103) and `part_002` (lines 234–272). -/

/-- The parsed body slot: absent (`undefined`), a JSON value (successful
`JSON.parse`), or the raw stripped string (failed `JSON.parse`). -/
inductive BodyVal where
  | undef : BodyVal
  | json (j : Json) : BodyVal
  | raw (s : String) : BodyVal

/-- The mutable locals of the parser's token walk. -/
structure CurlSt where
  url : String
  method : String
  headers : List (String × String)
  body : BodyVal

/-- The walk's initial state: `url = ''`, `method = 'GET'`, empty headers,
no body. -/
def initCurlSt : CurlSt :=
  ⟨"", "GET", [], BodyVal.undef⟩

/-- Test `part === '-X' || part === '--request'`. -/
def isMethodFlag (p : String) : Bool :=
  p == "-X" || p == "--request"

/-- Test `part === '-H' || part === '--header'`. -/
def isHeaderFlag (p : String) : Bool :=
  p == "-H" || p == "--header"

/-- Test `part === '-d' || part === '--data'`. -/
def isDataFlag (p : String) : Bool :=
  p == "-d" || p == "--data"

/-- Value of `parts[++i]?.toUpperCase() || 'GET'` for a present following token. -/
def methodOfToken (t : String) : String :=
  if jsToUpper t = "" then "GET" else jsToUpper t

/-- The header-flag body: the consumed token is globally quote-stripped,
split on `':'` into `[key, ...valueParts]`, and inserted when the key is
nonempty and at least one value part exists (last write wins). -/
def applyHeaderToken (hs : List (String × String)) (header : String) :
    List (String × String) :=
  if header = "" then hs
  else
    match jsSplitColon header with
    | [] => hs
    | key :: valueParts =>
      if key ≠ "" ∧ valueParts ≠ [] then
        insertRecord hs (jsTrim key) (jsTrim (jsJoinColon valueParts))
      else hs

/-- The data-flag body applied to the state: the consumed token is
edge-quote-stripped; a nonempty result is `JSON.parse`d, keeping the raw
string on failure; an empty result leaves the body unchanged
(`if (data)` is falsy). -/
def applyDataToken (jp : String → Option Json) (st : CurlSt) (t : String) : CurlSt :=
  let data := stripEdgeQuotes t
  if data = "" then st
  else
    { st with body := match jp data with
                      | some v => BodyVal.json v
                      | none => BodyVal.raw data }

/-- The `for (let i = 0; i < parts.length; i++)` walk of `parseCurlCommand`,
one equation per loop iteration; flag tokens consume the following token
(`parts[++i]`). -/
def walkCurl (jp : String → Option Json) : List String → CurlSt → CurlSt
  | [], st => st
  | p :: rest, st =>
    if p = "curl" then walkCurl jp rest st
    else if isMethodFlag p then
      match rest with
      | [] => walkCurl jp [] { st with method := "GET" }
      | t :: rest2 => walkCurl jp rest2 { st with method := methodOfToken t }
    else if isHeaderFlag p then
      match rest with
      | [] => walkCurl jp [] st
      | t :: rest2 =>
        walkCurl jp rest2
          { st with headers := applyHeaderToken st.headers (stripAllQuotes t) }
    else if isDataFlag p then
      match rest with
      | [] => walkCurl jp [] st
      | t :: rest2 => walkCurl jp rest2 (applyDataToken jp st t)
    else if !jsStartsWithDash p && st.url = "" then
      walkCurl jp rest { st with url := stripAllQuotes p }
    else walkCurl jp rest st

/-- The parser's output record `{ url, method, headers, body }`. -/
structure CurlDescriptor where
  url : String
  method : String
  headers : List (String × String)
  body : BodyVal

/-- The parser's failure: `throw new Error('No URL found in CURL command')`
(the spec's `MalformedCommand`). -/
inductive CurlError where
  | malformedCommand (msg : String) : CurlError

/-- Function `parseCurlCommand` (`part_000` lines 234–272): whitespace-tokenize,
walk, and fail iff the URL slot is still empty. -/
def parseCurlCommand (jp : String → Option Json) (cmd : String) :
    Except CurlError CurlDescriptor :=
  let st := walkCurl jp (jsSplitWs cmd) initCurlSt
  if st.url = "" then
    Except.error (CurlError.malformedCommand "No URL found in CURL command")
  else
    Except.ok ⟨st.url, st.method, st.headers, st.body⟩

/-! ## Session registry

Source: `const sessions: Record<string, { transport }> = {}` together with the
lookups, inserts (`sessions[id] = { transport }`) and deletes
(`delete sessions[sessionId]`) in the route handlers.  The transport object is
the protocol-engine collaborator and stays abstract (`τ`). -/

/-- The `mcp-session-id` header value: `undefined` when absent, else its
string; `sid.getD ""` is used with JavaScript truthiness (absent and empty
behave alike in `if (sessionId && ...)`). -/
def sidString (sid : Option String) : String :=
  sid.getD ""

/-- JavaScript truthiness of the session-identifier header value. -/
def sidTruthy (sid : Option String) : Bool :=
  !(sidString sid).isEmpty

/-- Lookup `sessions[k]` on the association-list model of the registry. -/
def lookupSession {τ : Type} : List (String × τ) → String → Option τ
  | [], _ => none
  | (k0, t) :: rest, k => if k0 = k then some t else lookupSession rest k

/-- Model of `delete sessions[k]`. -/
def removeSession {τ : Type} : List (String × τ) → String → List (String × τ)
  | [], _ => []
  | (k0, t) :: rest, k => if k0 = k then rest else (k0, t) :: removeSession rest k

/-- Insertion `sessions[id] = { transport }` (update-or-append, like `insertRecord`). -/
def insertSession {τ : Type} : List (String × τ) → String → τ → List (String × τ)
  | [], k, t => [(k, t)]
  | (k0, t0) :: rest, k, t =>
    if k0 = k then (k0, t) :: rest else (k0, t0) :: insertSession rest k t

/-! ## Response sink operations and the promise model

The transport drives the handler-supplied mock `res` object through calls to
`setHeader`, `writeHead`, `write` and `end`; these calls are modelled as a
trace of `SinkOp`s executed in order (the single-threaded cooperative
schedule: the transport's calls happen before the promise's awaiting
continuation runs).  The future handed to the serving framework is an
`Option`-valued promise state: `resolve` keeps the first value. -/

/-- One call made by the transport on the response-sink surface. -/
inductive SinkOp where
  | setHeader (k v : String) : SinkOp
  | writeHead (status : Nat) (hdrs : List (String × String)) : SinkOp
  | write (chunk : String) : SinkOp
  | endOp (data : Option String) : SinkOp

/-- Whether an operation is the completion signal `end`. -/
def isEndOp : SinkOp → Bool
  | SinkOp.endOp _ => true
  | _ => false

/-- ECMAScript promise resolution: the first `resolve` wins, later calls are
no-ops. -/
def resolveOnce {α : Type} (p : Option α) (v : α) : Option α :=
  match p with
  | none => some v
  | some w => some w

/-- The fixed cross-origin headers of `src/index.ts` (`corsHeaders`). -/
def corsHeaders : List (String × String) :=
  [("Access-Control-Allow-Origin", "*"),
   ("Access-Control-Allow-Methods", "GET, POST, PUT, DELETE, OPTIONS"),
   ("Access-Control-Allow-Headers", "Content-Type, mcp-session-id")]

/-- The header record with only `'Content-Type': 'application/json'`. -/
def contentTypeJson : List (String × String) :=
  [("Content-Type", "application/json")]

/-- A completed HTTP response value (`new Response(body, {status, headers})`). -/
structure SinkResponse where
  status : Nat
  headers : List (String × String)
  body : String

/-! ### The `src/index.ts` POST adapter (lines 133–156)

`res` holds `statusCode` (default 200) and `_headers`; `writeHead` records
only the status (its header argument is not in the function's signature and
is dropped); `end` builds a `Response` from the current state —
`data || ''`, `{'Content-Type': 'application/json', ...corsHeaders,
...this._headers}` — and resolves the promise.  No handler is attached to
the `transport.handleRequest(...)` promise: its rejection or fulfilment
cannot touch the future. -/

/-- The mock `res` of the `src/index.ts` POST handler. -/
structure IndexResSt where
  statusCode : Nat
  hdrs : List (String × String)

/-- Initial `res` state: `statusCode: 200`, `_headers: {}`. -/
def initIndexRes : IndexResSt :=
  ⟨200, []⟩

/-- The `Response` built by the `src/index.ts` `end(data)` from `res` state
`r`. -/
def mkIndexResponse (r : IndexResSt) (data : Option String) : SinkResponse :=
  ⟨r.statusCode, mergeRecords (mergeRecords contentTypeJson corsHeaders) r.hdrs,
   data.getD ""⟩

/-- One sink call against the `src/index.ts` POST `res`, threading the
promise state. -/
def indexPostStep : IndexResSt × Option SinkResponse → SinkOp →
    IndexResSt × Option SinkResponse
  | (r, p), SinkOp.setHeader k v => ({ r with hdrs := insertRecord r.hdrs k v }, p)
  | (r, p), SinkOp.writeHead s _ => ({ r with statusCode := s }, p)
  | (r, p), SinkOp.write _ => (r, p)
  | (r, p), SinkOp.endOp d => (r, resolveOnce p (mkIndexResponse r d))

/-- The future's state after the transport's calls (`src/index.ts`): the
`rejects` flag says whether `transport.handleRequest` rejected afterwards —
`src/index.ts` attaches no `.catch`, so it cannot influence the future. -/
def indexAdapterRun (ops : List SinkOp) (rejects : Bool) : Option SinkResponse :=
  let out := ops.foldl indexPostStep (initIndexRes, none)
  let _ := rejects
  out.2

/-! ### The `part_001` POST adapter (lines 175–197 and 237–270)

`MockResponse.writeHead(status, headers?)` also merges its header argument;
`end(data)` stores `_data` and emits `finish`, whose listener resolves with a
`Response` built from the then-current state; `.catch` resolves a fixed 500
JSON-RPC internal-error response. -/

/-- The `MockResponse` state of `part_001`. -/
structure P1ResSt where
  statusCode : Nat
  hdrs : List (String × String)
  data : Option String

/-- Initial `MockResponse`. -/
def initP1Res : P1ResSt :=
  ⟨200, [], none⟩

/-- One sink call against the `part_001` POST `MockResponse`. -/
def part001PostStep : P1ResSt × Option SinkResponse → SinkOp →
    P1ResSt × Option SinkResponse
  | (r, p), SinkOp.setHeader k v => ({ r with hdrs := insertRecord r.hdrs k v }, p)
  | (r, p), SinkOp.writeHead s hs =>
    ({ r with statusCode := s, hdrs := mergeRecords r.hdrs hs }, p)
  | (r, p), SinkOp.write _ => (r, p)
  | (r, p), SinkOp.endOp d =>
    let r2 := { r with data := d }
    (r2, resolveOnce p
      ⟨r2.statusCode,
       mergeRecords (mergeRecords contentTypeJson corsHeaders) r2.hdrs,
       r2.data.getD ""⟩)

/-- The serialized JSON-RPC internal-error envelope of the `part_001`
rejection handler. -/
def internalErrorBody : String :=
  "\x7b\"jsonrpc\":\"2.0\",\"error\":\x7b\"code\":-32603,\"message\":\"Internal Error\"\x7d,\"id\":null\x7d"

/-- The 500 response resolved by the `part_001` `.catch` handler. -/
def p1ErrorResponse : SinkResponse :=
  ⟨500, mergeRecords contentTypeJson corsHeaders, internalErrorBody⟩

/-- The future's state after the transport's calls (`part_001`): a rejection
of `transport.handleRequest` resolves the fixed 500 response — a no-op when
`end` already resolved the future. -/
def part001AdapterRun (ops : List SinkOp) (rejects : Bool) : Option SinkResponse :=
  let p := (ops.foldl part001PostStep (initP1Res, none)).2
  if rejects then resolveOnce p p1ErrorResponse else p

/-! ### The `part_002` POST adapter (lines 339–395)

Here `end` is where the Elysia context is mutated: the original `end(data)`
copies `res.statusCode` into `set.status`, merges `res._headers` into
`set.headers`, and returns `JSON.parse(data)`-or-raw; the wrapped `end`
additionally resolves the promise with that return value.  The framework
reads `set.status` / `set.headers` only after the awaited promise's
continuation runs, i.e. after all of the transport's (cooperatively
scheduled) sink calls. -/

/-- The value a `part_002` `end` returns and resolves: `undefined`, a parsed
JSON value, or the raw string. -/
inductive HandlerBody where
  | empty : HandlerBody
  | text (s : String) : HandlerBody
  | jsonVal (j : Json) : HandlerBody

/-- Application of `JSON.parse(data)`-with-raw-fallback to an optional `end`
payload (the shape `if (data) { try JSON.parse ... } return undefined`). -/
def parseHandlerBody (jp : String → Option Json) : Option String → HandlerBody
  | none => HandlerBody.empty
  | some s =>
    if s = "" then HandlerBody.empty
    else
      match jp s with
      | some j => HandlerBody.jsonVal j
      | none => HandlerBody.text s

/-- The `part_002` POST handler state: the mock `res` plus the Elysia
context (`set.status`, `set.headers`) and the promise. -/
structure P2St where
  statusCode : Nat
  hdrs : List (String × String)
  ctxStatus : Nat
  ctxHeaders : List (String × String)
  resolved : Option HandlerBody

/-- Initial `part_002` handler state. -/
def initP2St : P2St :=
  ⟨200, [], 200, [], none⟩

/-- One sink call against the `part_002` POST `res`: `end` mutates the
context every time it is called, but only the first call fixes the promise
value. -/
def part002PostStep (jp : String → Option Json) (st : P2St) : SinkOp → P2St
  | SinkOp.setHeader k v => { st with hdrs := insertRecord st.hdrs k v }
  | SinkOp.writeHead s hs =>
    { st with statusCode := s, hdrs := mergeRecords st.hdrs hs }
  | SinkOp.write _ => st
  | SinkOp.endOp d =>
    { st with
      ctxStatus := st.statusCode,
      ctxHeaders := mergeRecords st.ctxHeaders st.hdrs,
      resolved := resolveOnce st.resolved (parseHandlerBody jp d) }

/-- The `part_002` handler state after the transport's sink calls. -/
def part002PostRun (jp : String → Option Json) (ops : List SinkOp) : P2St :=
  ops.foldl (part002PostStep jp) initP2St

/-! ## The DELETE `/mcp` handlers -/

/-- The observable outcome of one DELETE `/mcp` call: the registry
afterwards, the HTTP status, the body, and whether the handler forwarded the
call into `transport.handleRequest`. -/
structure DeleteOutcome (τ : Type) where
  sessionsAfter : List (String × τ)
  status : Nat
  body : HandlerBody
  transportInvoked : Bool

/-- The `src/index.ts` DELETE handler (lines 202–211): if the header is
truthy and registered, the session is deleted; either way the response is
`new Response('', { status: 200, headers: corsHeaders })` and the transport
is never consulted. -/
def deleteMcpIndex {τ : Type} (sessions : List (String × τ)) (sid : Option String) :
    DeleteOutcome τ :=
  if sidTruthy sid && (lookupSession sessions (sidString sid)).isSome then
    ⟨removeSession sessions (sidString sid), 200, HandlerBody.text "", false⟩
  else
    ⟨sessions, 200, HandlerBody.text "", false⟩

/-- The mock `res` of the `part_000` handlers: `writeHead(status, headers?)`
merges, `end(data)` stores the data (the last call wins — there is no
promise here, the handler `await`s `handleRequest` and then reads the
fields). -/
structure Part0ResSt where
  statusCode : Nat
  hdrs : List (String × String)
  data : Option String

/-- Initial `part_000` mock `res`. -/
def initPart0Res : Part0ResSt :=
  ⟨200, [], none⟩

/-- One sink call against a `part_000` mock `res`. -/
def part0Step (r : Part0ResSt) : SinkOp → Part0ResSt
  | SinkOp.setHeader k v => { r with hdrs := insertRecord r.hdrs k v }
  | SinkOp.writeHead s hs =>
    { r with statusCode := s, hdrs := mergeRecords r.hdrs hs }
  | SinkOp.write _ => r
  | SinkOp.endOp d => { r with data := d }

/-- The `part_000` DELETE handler (lines 461–524): a falsy or unknown
session identifier is rejected with 400 and a plain-text body; otherwise the
session is deleted and then — unlike `src/index.ts` — the DELETE is
forwarded into `transport.handleRequest`, whose sink calls (`ops`) determine
status, headers and body of the response. -/
def part0DeleteMcp {τ : Type} (jp : String → Option Json)
    (sessions : List (String × τ)) (sid : Option String) (ops : List SinkOp) :
    DeleteOutcome τ :=
  if sidTruthy sid && (lookupSession sessions (sidString sid)).isSome then
    let r := ops.foldl part0Step initPart0Res
    ⟨removeSession sessions (sidString sid), r.statusCode,
     parseHandlerBody jp r.data, true⟩
  else
    ⟨sessions, 400, HandlerBody.text "Invalid or missing session ID", false⟩

/-! ## The POST `/mcp` classification -/

/-- The fixed JSON-RPC error envelope
`{ jsonrpc: '2.0', error: { code, message }, id: null }`. -/
structure RpcErrEnvelope where
  jsonrpc : String
  errCode : Int
  errMessage : String
  id : Option Json

/-- The 400 envelope of the `src/index.ts` POST handler (lines 124–131). -/
def badRequestEnvIndex : RpcErrEnvelope :=
  ⟨"2.0", -32000, "Bad Request", none⟩

/-- The 400 envelope of the `part_000` POST handler (lines 320–329). -/
def badRequestEnvPart0 : RpcErrEnvelope :=
  ⟨"2.0", -32000, "Bad Request: No valid session ID provided", none⟩

/-- How one POST `/mcp` call concluded: an immediate JSON-RPC rejection, a
continuation on an existing transport, or a new-session initialization —
the latter two carrying the state of the awaited future. -/
inductive PostOutcome (τ : Type) where
  | reject (status : Nat) (envelope : RpcErrEnvelope) : PostOutcome τ
  | continuation (t : τ) (fut : Option SinkResponse) : PostOutcome τ
  | newSession (fut : Option SinkResponse) : PostOutcome τ

/-- The `src/index.ts` POST handler (lines 104–168) as a function of the
classification inputs: the registry, the header value, whether the body
`isInitializeRequest` (`isInitReq`, an SDK predicate kept abstract), the
transport's sink trace and rejection flag, and — for the initialization
branch — the freshly constructed transport `newT` and the identifier
`initId` the SDK reports to `onsessioninitialized` while handling the
request (`none` when the handshake does not complete during the call).
Returns the registry afterwards and the outcome. -/
def postMcpIndex {τ : Type} (sessions : List (String × τ)) (sid : Option String)
    (isInitReq : Bool) (ops : List SinkOp) (rejects : Bool)
    (newT : τ) (initId : Option String) :
    List (String × τ) × PostOutcome τ :=
  match lookupSession sessions (sidString sid), sidTruthy sid with
  | some t, true => (sessions, PostOutcome.continuation t (indexAdapterRun ops rejects))
  | _, _ =>
    if !sidTruthy sid && isInitReq then
      (match initId with
       | some id => insertSession sessions id newT
       | none => sessions,
       PostOutcome.newSession (indexAdapterRun ops rejects))
    else
      (sessions, PostOutcome.reject 400 badRequestEnvIndex)

/-- The `part_000` POST handler's classification (lines 288–330), which
rejects with its own message; the continuation/initialization branches use
the `part_000` mock `res` (no promise) and are summarized by the final
`res` state. -/
def postMcpPart0 {τ : Type} (jp : String → Option Json)
    (sessions : List (String × τ)) (sid : Option String)
    (isInitReq : Bool) (ops : List SinkOp) (newT : τ) (initId : Option String) :
    List (String × τ) × PostOutcome τ :=
  match lookupSession sessions (sidString sid), sidTruthy sid with
  | some t, true =>
    let r := ops.foldl part0Step initPart0Res
    let _ := jp
    (sessions, PostOutcome.continuation t (some ⟨r.statusCode, r.hdrs, (r.data).getD ""⟩))
  | _, _ =>
    if !sidTruthy sid && isInitReq then
      let r := ops.foldl part0Step initPart0Res
      (match initId with
       | some id => insertSession sessions id newT
       | none => sessions,
       PostOutcome.newSession (some ⟨r.statusCode, r.hdrs, (r.data).getD ""⟩))
    else
      (sessions, PostOutcome.reject 400 badRequestEnvPart0)

/-! ## Walk predicates used to state the parser claims -/

/-- Tokens whose walk modifies the method slot at no flag position: every
token is walked, `curl` is skipped, header/data flags consume their
argument, and no method flag is met in flag position. -/
def noMethodUpdate : List String → Bool
  | [] => true
  | p :: rest =>
    if p = "curl" then noMethodUpdate rest
    else if isMethodFlag p then false
    else if isHeaderFlag p || isDataFlag p then
      match rest with
      | [] => true
      | _ :: rest2 => noMethodUpdate rest2
    else noMethodUpdate rest

/-- Tokens that the walk consumes without a dangling flag at the end (a
trailing flag would otherwise consume into whatever follows). -/
def completeTokens : List String → Bool
  | [] => true
  | p :: rest =>
    if p = "curl" then completeTokens rest
    else if isMethodFlag p || isHeaderFlag p || isDataFlag p then
      match rest with
      | [] => false
      | _ :: rest2 => completeTokens rest2
    else completeTokens rest

/-! ## Step lemmas for the walk -/

theorem methodFlag_cases {p : String} (h : isMethodFlag p = true) :
    p = "-X" ∨ p = "--request" := by
  simpa [isMethodFlag] using h

theorem headerFlag_cases {p : String} (h : isHeaderFlag p = true) :
    p = "-H" ∨ p = "--header" := by
  simpa [isHeaderFlag] using h

theorem dataFlag_cases {p : String} (h : isDataFlag p = true) :
    p = "-d" ∨ p = "--data" := by
  simpa [isDataFlag] using h

theorem isMethodFlag_dash {p : String} (h : isMethodFlag p = true) :
    jsStartsWithDash p = true := by
  rcases methodFlag_cases h with h1 | h1 <;> rw [h1] <;> decide

theorem isHeaderFlag_dash {p : String} (h : isHeaderFlag p = true) :
    jsStartsWithDash p = true := by
  rcases headerFlag_cases h with h1 | h1 <;> rw [h1] <;> decide

theorem isDataFlag_dash {p : String} (h : isDataFlag p = true) :
    jsStartsWithDash p = true := by
  rcases dataFlag_cases h with h1 | h1 <;> rw [h1] <;> decide

theorem isMethodFlag_ne_curl {p : String} (h : isMethodFlag p = true) :
    ¬ (p = "curl") := by
  rcases methodFlag_cases h with h1 | h1 <;> rw [h1] <;> decide

theorem isHeaderFlag_ne_curl {p : String} (h : isHeaderFlag p = true) :
    ¬ (p = "curl") := by
  rcases headerFlag_cases h with h1 | h1 <;> rw [h1] <;> decide

theorem isDataFlag_ne_curl {p : String} (h : isDataFlag p = true) :
    ¬ (p = "curl") := by
  rcases dataFlag_cases h with h1 | h1 <;> rw [h1] <;> decide

theorem isHeaderFlag_not_method {p : String} (h : isHeaderFlag p = true) :
    isMethodFlag p = false := by
  rcases headerFlag_cases h with h1 | h1 <;> rw [h1] <;> decide

theorem isDataFlag_not_method {p : String} (h : isDataFlag p = true) :
    isMethodFlag p = false := by
  rcases dataFlag_cases h with h1 | h1 <;> rw [h1] <;> decide

theorem isDataFlag_not_header {p : String} (h : isDataFlag p = true) :
    isHeaderFlag p = false := by
  rcases dataFlag_cases h with h1 | h1 <;> rw [h1] <;> decide

/-- The walk on an exhausted token list. -/
theorem walkCurl_nil (jp : String → Option Json) (st : CurlSt) :
    walkCurl jp [] st = st := by
  rw [walkCurl.eq_def]

/-- One walk iteration on a `curl` token. -/
theorem walkCurl_curl (jp : String → Option Json) (rest : List String) (st : CurlSt) :
    walkCurl jp ("curl" :: rest) st = walkCurl jp rest st := by
  rw [walkCurl.eq_def]
  simp

/-- One walk iteration on a method flag with a following token. -/
theorem walkCurl_method (jp : String → Option Json) {m : String} (t : String)
    (rest : List String) (st : CurlSt) (h : isMethodFlag m = true) :
    walkCurl jp (m :: t :: rest) st =
      walkCurl jp rest { st with method := methodOfToken t } := by
  rw [walkCurl.eq_def]
  simp only [isMethodFlag_ne_curl h, h, if_false, if_true]

/-- One walk iteration on a trailing method flag: `parts[++i]` is
`undefined` and `undefined?.toUpperCase() || 'GET'` is `'GET'`. -/
theorem walkCurl_method_last (jp : String → Option Json) {m : String}
    (st : CurlSt) (h : isMethodFlag m = true) :
    walkCurl jp [m] st = { st with method := "GET" } := by
  rw [walkCurl.eq_def]
  simp only [isMethodFlag_ne_curl h, h, if_false, if_true]
  rw [walkCurl.eq_def]

/-- One walk iteration on a header flag with a following token. -/
theorem walkCurl_header (jp : String → Option Json) {p : String} (t : String)
    (rest : List String) (st : CurlSt) (h : isHeaderFlag p = true) :
    walkCurl jp (p :: t :: rest) st =
      walkCurl jp rest
        { st with headers := applyHeaderToken st.headers (stripAllQuotes t) } := by
  rw [walkCurl.eq_def]
  simp [isHeaderFlag_ne_curl h, isHeaderFlag_not_method h, h]

/-- One walk iteration on a trailing header flag: nothing is recorded. -/
theorem walkCurl_header_last (jp : String → Option Json) {p : String}
    (st : CurlSt) (h : isHeaderFlag p = true) :
    walkCurl jp [p] st = st := by
  rw [walkCurl.eq_def]
  simp [isHeaderFlag_ne_curl h, isHeaderFlag_not_method h, h, walkCurl_nil]

/-- One walk iteration on a data flag with a following token. -/
theorem walkCurl_data (jp : String → Option Json) {p : String} (t : String)
    (rest : List String) (st : CurlSt) (h : isDataFlag p = true) :
    walkCurl jp (p :: t :: rest) st = walkCurl jp rest (applyDataToken jp st t) := by
  rw [walkCurl.eq_def]
  simp [isDataFlag_ne_curl h, isDataFlag_not_method h, isDataFlag_not_header h, h]

/-- One walk iteration on a trailing data flag: the body is untouched. -/
theorem walkCurl_data_last (jp : String → Option Json) {p : String}
    (st : CurlSt) (h : isDataFlag p = true) :
    walkCurl jp [p] st = st := by
  rw [walkCurl.eq_def]
  simp [isDataFlag_ne_curl h, isDataFlag_not_method h, isDataFlag_not_header h, h,
    walkCurl_nil]

/-- A non-flag, non-`curl` token has its walk iteration determined by the
URL slot: it fills an empty slot (globally quote-stripped) and is skipped
otherwise. -/
theorem walkCurl_plain (jp : String → Option Json) {p : String}
    (rest : List String) (st : CurlSt) (hc : ¬ (p = "curl"))
    (hm : isMethodFlag p = false) (hh : isHeaderFlag p = false)
    (hd : isDataFlag p = false) :
    walkCurl jp (p :: rest) st =
      walkCurl jp rest
        (if !jsStartsWithDash p && st.url = "" then
          { st with url := stripAllQuotes p }
         else st) := by
  rw [walkCurl.eq_def]
  by_cases hcond : (!jsStartsWithDash p && decide (st.url = "")) = true
  · simp [hc, hm, hh, hd, hcond]
  · simp [hc, hm, hh, hd, hcond]

/-- One walk iteration on a non-flag token while the URL slot is empty: the
token, globally quote-stripped, becomes the URL. -/
theorem walkCurl_url (jp : String → Option Json) {p : String}
    (rest : List String) (st : CurlSt) (hc : ¬ (p = "curl"))
    (hdash : jsStartsWithDash p = false) (hu : st.url = "") :
    walkCurl jp (p :: rest) st =
      walkCurl jp rest { st with url := stripAllQuotes p } := by
  have hm : isMethodFlag p = false := by
    cases hmf : isMethodFlag p
    · rfl
    · rw [isMethodFlag_dash hmf] at hdash; cases hdash
  have hh : isHeaderFlag p = false := by
    cases hhf : isHeaderFlag p
    · rfl
    · rw [isHeaderFlag_dash hhf] at hdash; cases hdash
  have hd : isDataFlag p = false := by
    cases hdf : isDataFlag p
    · rfl
    · rw [isDataFlag_dash hdf] at hdash; cases hdash
  rw [walkCurl_plain jp rest st hc hm hh hd]
  simp [hdash, hu]

/-! ## Unfolding lemmas for the walk predicates -/

theorem noMethodUpdate_nil : noMethodUpdate [] = true := rfl

theorem noMethodUpdate_curl (rest : List String) :
    noMethodUpdate ("curl" :: rest) = noMethodUpdate rest := by
  rw [noMethodUpdate.eq_def]
  simp

theorem noMethodUpdate_method {p : String} (rest : List String)
    (h : isMethodFlag p = true) : noMethodUpdate (p :: rest) = false := by
  rw [noMethodUpdate.eq_def]
  simp [isMethodFlag_ne_curl h, h]

theorem noMethodUpdate_consume {p : String} (t : String) (rest : List String)
    (h : isHeaderFlag p = true ∨ isDataFlag p = true) :
    noMethodUpdate (p :: t :: rest) = noMethodUpdate rest := by
  rw [noMethodUpdate.eq_def]
  rcases h with h | h
  · simp [isHeaderFlag_ne_curl h, isHeaderFlag_not_method h, h]
  · simp [isDataFlag_ne_curl h, isDataFlag_not_method h, h]

theorem noMethodUpdate_consume_last {p : String}
    (h : isHeaderFlag p = true ∨ isDataFlag p = true) :
    noMethodUpdate [p] = true := by
  rw [noMethodUpdate.eq_def]
  rcases h with h | h
  · simp [isHeaderFlag_ne_curl h, isHeaderFlag_not_method h, h]
  · simp [isDataFlag_ne_curl h, isDataFlag_not_method h, h]

theorem noMethodUpdate_other {p : String} (rest : List String)
    (hc : ¬ (p = "curl")) (hm : isMethodFlag p = false)
    (hh : isHeaderFlag p = false) (hd : isDataFlag p = false) :
    noMethodUpdate (p :: rest) = noMethodUpdate rest := by
  rw [noMethodUpdate.eq_def]
  simp [hc, hm, hh, hd]

theorem completeTokens_nil : completeTokens [] = true := rfl

theorem completeTokens_curl (rest : List String) :
    completeTokens ("curl" :: rest) = completeTokens rest := by
  rw [completeTokens.eq_def]
  simp

theorem completeTokens_consume {p : String} (t : String) (rest : List String)
    (h : isMethodFlag p = true ∨ isHeaderFlag p = true ∨ isDataFlag p = true) :
    completeTokens (p :: t :: rest) = completeTokens rest := by
  rw [completeTokens.eq_def]
  rcases h with h | h | h
  · simp [isMethodFlag_ne_curl h, h]
  · simp [isHeaderFlag_ne_curl h, h]
  · simp [isDataFlag_ne_curl h, h]

theorem completeTokens_dangling {p : String}
    (h : isMethodFlag p = true ∨ isHeaderFlag p = true ∨ isDataFlag p = true) :
    completeTokens [p] = false := by
  rw [completeTokens.eq_def]
  rcases h with h | h | h
  · simp [isMethodFlag_ne_curl h, h]
  · simp [isHeaderFlag_ne_curl h, h]
  · simp [isDataFlag_ne_curl h, h]

theorem completeTokens_other {p : String} (rest : List String)
    (hc : ¬ (p = "curl")) (hm : isMethodFlag p = false)
    (hh : isHeaderFlag p = false) (hd : isDataFlag p = false) :
    completeTokens (p :: rest) = completeTokens rest := by
  rw [completeTokens.eq_def]
  simp [hc, hm, hh, hd]

/-! ## Induction lemmas for the walk -/

/-- If no flag position updates the method slot, the walk leaves the method
unchanged. -/
theorem walk_method_const (jp : String → Option Json) :
    ∀ (ts : List String) (st : CurlSt), noMethodUpdate ts = true →
      (walkCurl jp ts st).method = st.method
  | [], st, _ => by rw [walkCurl_nil]
  | [p], st, h => by
    by_cases hc : p = "curl"
    · subst hc; rw [walkCurl_curl, walkCurl_nil]
    · by_cases hm : isMethodFlag p = true
      · rw [noMethodUpdate_method [] hm] at h; cases h
      · by_cases hh : isHeaderFlag p = true
        · rw [walkCurl_header_last jp st hh]
        · by_cases hd : isDataFlag p = true
          · rw [walkCurl_data_last jp st hd]
          · rw [walkCurl_plain jp [] st hc (Bool.not_eq_true _ ▸ hm)
              (Bool.not_eq_true _ ▸ hh) (Bool.not_eq_true _ ▸ hd), walkCurl_nil]
            split <;> rfl
  | p :: t :: rest, st, h => by
    by_cases hc : p = "curl"
    · subst hc
      rw [walkCurl_curl]
      exact walk_method_const jp (t :: rest) st (by rwa [noMethodUpdate_curl] at h)
    · by_cases hm : isMethodFlag p = true
      · rw [noMethodUpdate_method (t :: rest) hm] at h; cases h
      · by_cases hh : isHeaderFlag p = true
        · rw [walkCurl_header jp t rest st hh]
          exact walk_method_const jp rest _
            (by rwa [noMethodUpdate_consume t rest (Or.inl hh)] at h)
        · by_cases hd : isDataFlag p = true
          · rw [walkCurl_data jp t rest st hd]
            have hbody : (applyDataToken jp st t).method = st.method := by
              rw [applyDataToken]
              split <;> rfl
            rw [walk_method_const jp rest _
              (by rwa [noMethodUpdate_consume t rest (Or.inr hd)] at h), hbody]
          · rw [walkCurl_plain jp (t :: rest) st hc (Bool.not_eq_true _ ▸ hm)
              (Bool.not_eq_true _ ▸ hh) (Bool.not_eq_true _ ▸ hd)]
            have h2 : noMethodUpdate (t :: rest) = true := by
              rwa [noMethodUpdate_other (t :: rest) hc (Bool.not_eq_true _ ▸ hm)
                (Bool.not_eq_true _ ▸ hh) (Bool.not_eq_true _ ▸ hd)] at h
            rw [walk_method_const jp (t :: rest) _ h2]
            split <;> rfl

/-- A token list free of method-flag tokens never updates the method slot. -/
theorem noMethodUpdate_of_no_flag :
    ∀ (ts : List String), (∀ x ∈ ts, isMethodFlag x = false) →
      noMethodUpdate ts = true
  | [], _ => rfl
  | [p], h => by
    have hm : isMethodFlag p = false := h p (List.mem_singleton.mpr rfl)
    by_cases hc : p = "curl"
    · subst hc; rw [noMethodUpdate_curl]; rfl
    · by_cases hh : isHeaderFlag p = true
      · exact noMethodUpdate_consume_last (Or.inl hh)
      · by_cases hd : isDataFlag p = true
        · exact noMethodUpdate_consume_last (Or.inr hd)
        · rw [noMethodUpdate_other [] hc hm (Bool.not_eq_true _ ▸ hh)
            (Bool.not_eq_true _ ▸ hd)]
          rfl
  | p :: t :: rest, h => by
    have hm : isMethodFlag p = false := h p (List.mem_cons_self p (t :: rest))
    have hrest : ∀ x ∈ t :: rest, isMethodFlag x = false :=
      fun x hx => h x (List.mem_cons_of_mem p hx)
    have hrest2 : ∀ x ∈ rest, isMethodFlag x = false :=
      fun x hx => hrest x (List.mem_cons_of_mem t hx)
    by_cases hc : p = "curl"
    · subst hc
      rw [noMethodUpdate_curl]
      exact noMethodUpdate_of_no_flag (t :: rest) hrest
    · by_cases hh : isHeaderFlag p = true
      · rw [noMethodUpdate_consume t rest (Or.inl hh)]
        exact noMethodUpdate_of_no_flag rest hrest2
      · by_cases hd : isDataFlag p = true
        · rw [noMethodUpdate_consume t rest (Or.inr hd)]
          exact noMethodUpdate_of_no_flag rest hrest2
        · rw [noMethodUpdate_other (t :: rest) hc hm (Bool.not_eq_true _ ▸ hh)
            (Bool.not_eq_true _ ▸ hd)]
          exact noMethodUpdate_of_no_flag (t :: rest) hrest

/-- The walk over `pre ++ post` factors through the walk over `pre` when
`pre` is consumed without a dangling flag. -/
theorem walk_append (jp : String → Option Json) :
    ∀ (pre post : List String) (st : CurlSt), completeTokens pre = true →
      walkCurl jp (pre ++ post) st = walkCurl jp post (walkCurl jp pre st)
  | [], post, st, _ => by rw [List.nil_append, walkCurl_nil]
  | [p], post, st, h => by
    by_cases hc : p = "curl"
    · subst hc
      rw [List.cons_append, List.nil_append, walkCurl_curl, walkCurl_curl,
        walkCurl_nil]
    · by_cases hm : isMethodFlag p = true
      · rw [completeTokens_dangling (Or.inl hm)] at h; cases h
      · by_cases hh : isHeaderFlag p = true
        · rw [completeTokens_dangling (Or.inr (Or.inl hh))] at h; cases h
        · by_cases hd : isDataFlag p = true
          · rw [completeTokens_dangling (Or.inr (Or.inr hd))] at h; cases h
          · rw [List.cons_append, List.nil_append,
              walkCurl_plain jp post st hc (Bool.not_eq_true _ ▸ hm)
                (Bool.not_eq_true _ ▸ hh) (Bool.not_eq_true _ ▸ hd),
              walkCurl_plain jp [] st hc (Bool.not_eq_true _ ▸ hm)
                (Bool.not_eq_true _ ▸ hh) (Bool.not_eq_true _ ▸ hd),
              walkCurl_nil]
  | p :: t :: rest, post, st, h => by
    by_cases hc : p = "curl"
    · subst hc
      rw [List.cons_append, walkCurl_curl, walkCurl_curl]
      exact walk_append jp (t :: rest) post st
        (by rwa [completeTokens_curl] at h)
    · by_cases hm : isMethodFlag p = true
      · rw [List.cons_append, List.cons_append, walkCurl_method jp t _ st hm,
          walkCurl_method jp t rest st hm]
        exact walk_append jp rest post _
          (by rwa [completeTokens_consume t rest (Or.inl hm)] at h)
      · by_cases hh : isHeaderFlag p = true
        · rw [List.cons_append, List.cons_append, walkCurl_header jp t _ st hh,
            walkCurl_header jp t rest st hh]
          exact walk_append jp rest post _
            (by rwa [completeTokens_consume t rest (Or.inr (Or.inl hh))] at h)
        · by_cases hd : isDataFlag p = true
          · rw [List.cons_append, List.cons_append, walkCurl_data jp t _ st hd,
              walkCurl_data jp t rest st hd]
            exact walk_append jp rest post _
              (by rwa [completeTokens_consume t rest (Or.inr (Or.inr hd))] at h)
          · rw [List.cons_append,
              walkCurl_plain jp ((t :: rest) ++ post) st hc
                (Bool.not_eq_true _ ▸ hm) (Bool.not_eq_true _ ▸ hh)
                (Bool.not_eq_true _ ▸ hd),
              walkCurl_plain jp (t :: rest) st hc (Bool.not_eq_true _ ▸ hm)
                (Bool.not_eq_true _ ▸ hh) (Bool.not_eq_true _ ▸ hd)]
            exact walk_append jp (t :: rest) post _
              (by rwa [completeTokens_other (t :: rest) hc (Bool.not_eq_true _ ▸ hm)
                (Bool.not_eq_true _ ▸ hh) (Bool.not_eq_true _ ▸ hd)] at h)

/-- A successful parse returns exactly the walk's final state as the
descriptor. -/
theorem parse_ok_fields {jp : String → Option Json} {cmd : String}
    {d : CurlDescriptor} (h : parseCurlCommand jp cmd = Except.ok d) :
    d.url = (walkCurl jp (jsSplitWs cmd) initCurlSt).url ∧
    d.method = (walkCurl jp (jsSplitWs cmd) initCurlSt).method ∧
    d.headers = (walkCurl jp (jsSplitWs cmd) initCurlSt).headers ∧
    d.body = (walkCurl jp (jsSplitWs cmd) initCurlSt).body := by
  simp only [parseCurlCommand] at h
  split at h
  · cases h
  · cases h
    exact ⟨rfl, rfl, rfl, rfl⟩

/-! ## Claim C7 — parsing without a URL token fails with `MalformedCommand` -/

/-- C7.  If the full token walk ends with the URL slot still empty, the
parser fails with the `MalformedCommand` error (source message
`'No URL found in CURL command'`); and conversely every parse failure is
exactly that error with the URL slot empty. -/
theorem c7_no_url_error (jp : String → Option Json) (cmd : String) :
    ((walkCurl jp (jsSplitWs cmd) initCurlSt).url = "" →
      parseCurlCommand jp cmd =
        Except.error (CurlError.malformedCommand "No URL found in CURL command")) ∧
    (∀ e, parseCurlCommand jp cmd = Except.error e →
      (walkCurl jp (jsSplitWs cmd) initCurlSt).url = "" ∧
        e = CurlError.malformedCommand "No URL found in CURL command") := by
  constructor
  · intro h
    simp only [parseCurlCommand]
    rw [if_pos h]
  · intro e h
    simp only [parseCurlCommand] at h
    split at h
    · cases h
      exact ⟨by assumption, rfl⟩
    · cases h

/-- Witness for C7 at the concrete command `curl -X POST` (the method flag
consumes `POST`, so no URL token remains). -/
theorem c7_no_url_error_witness :
    (walkCurl jsonParseModel (jsSplitWs "curl -X POST") initCurlSt).url = "" ∧
    parseCurlCommand jsonParseModel "curl -X POST" =
      Except.error (CurlError.malformedCommand "No URL found in CURL command") :=
  ⟨rfl, (c7_no_url_error jsonParseModel "curl -X POST").1 rfl⟩

/-! ## Claim C8 — data-flag handling -/

/-- C8 (amended).  A data flag consumes the following token and strips one
layer of wrapping quotes; a nonempty stripped string is `JSON.parse`d with
the raw string kept verbatim on failure, while an empty stripped string
leaves the body unchanged (the source's `if (data)` truthiness guard, the
amendment); and no data token ever makes the parser fail — the only
possible parse error is the missing-URL one. -/
theorem c8_data_flag_amended :
    (∀ (jp : String → Option Json) (p t : String) (rest : List String)
       (st : CurlSt), isDataFlag p = true →
       walkCurl jp (p :: t :: rest) st =
         walkCurl jp rest
           (if stripEdgeQuotes t = "" then st
            else { st with body := match jp (stripEdgeQuotes t) with
                                   | some v => BodyVal.json v
                                   | none => BodyVal.raw (stripEdgeQuotes t) })) ∧
    (∀ (jp : String → Option Json) (cmd : String) (e : CurlError),
       parseCurlCommand jp cmd = Except.error e →
       e = CurlError.malformedCommand "No URL found in CURL command") := by
  constructor
  · intro jp p t rest st h
    rw [walkCurl_data jp t rest st h]
    rfl
  · intro jp cmd e h
    exact ((c7_no_url_error jp cmd).2 e h).2

/-- Counterexample for C8 as frozen: on `curl u -d ''` the stripped data
token is the empty string; `JSON.parse('')` fails, yet the body is not the
raw stripped string `''` — the `if (data)` guard skips the slot entirely
and the body stays absent. -/
theorem c8_data_flag_cex :
    jsonParseModel "" = none ∧
    stripEdgeQuotes "''" = "" ∧
    parseCurlCommand jsonParseModel "curl u -d ''" =
      Except.ok ⟨"u", "GET", [], BodyVal.undef⟩ ∧
    BodyVal.undef ≠ BodyVal.raw "" :=
  ⟨rfl, rfl, rfl, fun h => BodyVal.noConfusion h⟩

/-- Witness for C8 (amended) at the concrete step `-d x` from the initial
state. -/
theorem c8_data_flag_amended_witness :
    isDataFlag "-d" = true ∧
    walkCurl jsonParseModel ["-d", "x"] initCurlSt =
      walkCurl jsonParseModel []
        (if stripEdgeQuotes "x" = "" then initCurlSt
         else { initCurlSt with
                body := match jsonParseModel (stripEdgeQuotes "x") with
                        | some v => BodyVal.json v
                        | none => BodyVal.raw (stripEdgeQuotes "x") }) :=
  ⟨rfl, c8_data_flag_amended.1 jsonParseModel "-d" "x" [] initCurlSt rfl⟩

/-! ## Claim C9 — method-flag handling -/

/-- C9.  In a well-formed command (the prefix before the method flag is
consumed without a dangling flag, the flag's argument upper-cases to a
nonempty string, and no later flag position updates the method), the parsed
method is exactly the upper-cased argument token; a command whose tokens
contain no method flag parses with method `GET`; and a command whose method
flag is the final token (no following token) also parses with method
`GET`. -/
theorem c9_method_flag :
    (∀ (jp : String → Option Json) (cmd : String) (d : CurlDescriptor)
       (pre : List String) (m t : String) (post : List String),
       parseCurlCommand jp cmd = Except.ok d →
       jsSplitWs cmd = pre ++ m :: t :: post →
       completeTokens pre = true → isMethodFlag m = true →
       ¬ (jsToUpper t = "") → noMethodUpdate post = true →
       d.method = jsToUpper t) ∧
    (∀ (jp : String → Option Json) (cmd : String) (d : CurlDescriptor),
       parseCurlCommand jp cmd = Except.ok d →
       (∀ x ∈ jsSplitWs cmd, isMethodFlag x = false) →
       d.method = "GET") ∧
    (∀ (jp : String → Option Json) (cmd : String) (d : CurlDescriptor)
       (pre : List String) (m : String),
       parseCurlCommand jp cmd = Except.ok d →
       jsSplitWs cmd = pre ++ [m] →
       completeTokens pre = true → isMethodFlag m = true →
       d.method = "GET") := by
  refine ⟨?_, ?_, ?_⟩
  · intro jp cmd d pre m t post hok hsplit hpre hm ht hpost
    rw [(parse_ok_fields hok).2.1, hsplit,
      walk_append jp pre (m :: t :: post) initCurlSt hpre,
      walkCurl_method jp t post _ hm,
      walk_method_const jp post _ hpost]
    simp only [methodOfToken, if_neg ht]
  · intro jp cmd d hok hnone
    rw [(parse_ok_fields hok).2.1,
      walk_method_const jp (jsSplitWs cmd) initCurlSt
        (noMethodUpdate_of_no_flag (jsSplitWs cmd) hnone)]
    rfl
  · intro jp cmd d pre m hok hsplit hpre hm
    rw [(parse_ok_fields hok).2.1, hsplit,
      walk_append jp pre [m] initCurlSt hpre,
      walkCurl_method_last jp _ hm]

/-- Witness for C9 at the concrete command `curl -X post u`: the method flag
argument `post` parses (upper-cased) as `POST`. -/
theorem c9_method_flag_witness :
    parseCurlCommand jsonParseModel "curl -X post u" =
      Except.ok ⟨"u", "POST", [], BodyVal.undef⟩ ∧
    jsSplitWs "curl -X post u" = ["curl"] ++ "-X" :: "post" :: ["u"] ∧
    CurlDescriptor.method ⟨"u", "POST", [], BodyVal.undef⟩ = jsToUpper "post" :=
  ⟨rfl, rfl,
    c9_method_flag.1 jsonParseModel "curl -X post u"
      ⟨"u", "POST", [], BodyVal.undef⟩ ["curl"] "-X" "post" ["u"]
      rfl rfl rfl rfl (by decide) rfl⟩

/-! ## Claim C10 — URL and header tokens are globally quote-stripped -/

/-- C10.  Header tokens and URL tokens pass through
`replace(/['"]/g, '')`: the walk applies `stripAllQuotes` to the consumed
header token and to the URL token, and `stripAllQuotes` removes every
quote character wherever it occurs — interior ones included — as the two
concrete commands with interior quotes demonstrate end to end. -/
theorem c10_global_quote_strip :
    (∀ (jp : String → Option Json) (p t : String) (rest : List String)
       (st : CurlSt), isHeaderFlag p = true →
       walkCurl jp (p :: t :: rest) st =
         walkCurl jp rest
           { st with headers := applyHeaderToken st.headers (stripAllQuotes t) }) ∧
    (∀ (jp : String → Option Json) (p : String) (rest : List String)
       (st : CurlSt), ¬ (p = "curl") → jsStartsWithDash p = false →
       st.url = "" →
       walkCurl jp (p :: rest) st =
         walkCurl jp rest { st with url := stripAllQuotes p }) ∧
    (∀ s : String, (stripAllQuotes s).toList =
      s.toList.filter (fun c => !isQuoteChar c)) ∧
    parseCurlCommand jsonParseModel "curl ht'tp://a\"b" =
      Except.ok ⟨"http://ab", "GET", [], BodyVal.undef⟩ ∧
    parseCurlCommand jsonParseModel "curl u -H K:a'b\"c" =
      Except.ok ⟨"u", "GET", [("K", "abc")], BodyVal.undef⟩ := by
  refine ⟨?_, ?_, ?_, rfl, rfl⟩
  · intro jp p t rest st h
    exact walkCurl_header jp t rest st h
  · intro jp p rest st hc hd hu
    exact walkCurl_url jp rest st hc hd hu
  · intro s
    rfl

/-- Witness for C10 at the concrete step: the token `u'v` (interior quote)
fills the URL slot as `uv`. -/
theorem c10_global_quote_strip_witness :
    walkCurl jsonParseModel ["u'v"] initCurlSt =
      walkCurl jsonParseModel []
        { initCurlSt with url := stripAllQuotes "u'v" } :=
  c10_global_quote_strip.2.1 jsonParseModel "u'v" [] initCurlSt
    (by decide) rfl rfl

/-! ## Claim C1 — the round-trip example -/

/-- Counterexample for C1 as frozen: on the exact command of the claim the
parser produces header mapping `{'Content-Type': ''}` — the naive
whitespace tokenization splits the quoted header, so the value
`application/json` is lost — and not `{'Content-Type': 'application/json'}`
as claimed. -/
theorem c1_round_trip_cex :
    parseCurlCommand jsonParseModel
      "curl -X POST https://example.test/x -H 'Content-Type: application/json' -d '\x7b\"a\":1\x7d'" =
      Except.ok ⟨"https://example.test/x", "POST", [("Content-Type", "")],
        BodyVal.json (Json.obj [("a", Json.num 1)])⟩ ∧
    ¬ ([("Content-Type", "")] = [("Content-Type", "application/json")]) :=
  ⟨rfl, by decide⟩

/-- C1 (amended).  Parsing the claim's command yields method `POST`, URL
`https://example.test/x` and body `{a: 1}` as claimed, but the header
mapping is `{'Content-Type': ''}`: the whitespace tokenizer cuts the quoted
header value off, leaving the key with an empty value. -/
theorem c1_round_trip_amended :
    parseCurlCommand jsonParseModel
      "curl -X POST https://example.test/x -H 'Content-Type: application/json' -d '\x7b\"a\":1\x7d'" =
      Except.ok ⟨"https://example.test/x", "POST", [("Content-Type", "")],
        BodyVal.json (Json.obj [("a", Json.num 1)])⟩ := rfl

/-! ## Fold lemmas for the sink adapters -/

/-- Once the `src/index.ts` future is settled, no later sink call changes
its value (promise resolution is first-wins). -/
theorem indexFold_settled :
    ∀ (ops : List SinkOp) (r : IndexResSt) (v : SinkResponse),
      (ops.foldl indexPostStep (r, some v)).2 = some v
  | [], _, _ => rfl
  | op :: rest, r, v => by
    cases op with
    | setHeader k w => exact indexFold_settled rest _ v
    | writeHead s hs => exact indexFold_settled rest _ v
    | write c => exact indexFold_settled rest _ v
    | endOp d => exact indexFold_settled rest _ v

/-- Without a completion signal the `src/index.ts` future stays pending,
and the `res` state is untouched by the promise component. -/
theorem indexFold_pending :
    ∀ (ops : List SinkOp) (r : IndexResSt),
      (∀ op ∈ ops, isEndOp op = false) →
      ops.foldl indexPostStep (r, none) =
        ((ops.foldl indexPostStep (r, none)).1, none)
  | [], _, _ => rfl
  | op :: rest, r, h => by
    have hop : isEndOp op = false := h op (List.mem_cons_self op rest)
    have hrest : ∀ x ∈ rest, isEndOp x = false :=
      fun x hx => h x (List.mem_cons_of_mem op hx)
    cases op with
    | setHeader k w => exact indexFold_pending rest _ hrest
    | writeHead s hs => exact indexFold_pending rest _ hrest
    | write c => exact indexFold_pending rest _ hrest
    | endOp d => cases hop

/-- Once the `part_001` future is settled, no later sink call changes its
value. -/
theorem p1Fold_settled :
    ∀ (ops : List SinkOp) (r : P1ResSt) (v : SinkResponse),
      (ops.foldl part001PostStep (r, some v)).2 = some v
  | [], _, _ => rfl
  | op :: rest, r, v => by
    cases op with
    | setHeader k w => exact p1Fold_settled rest _ v
    | writeHead s hs => exact p1Fold_settled rest _ v
    | write c => exact p1Fold_settled rest _ v
    | endOp d => exact p1Fold_settled rest _ v

/-- A trace containing a completion signal leaves the `part_001` future
settled. -/
theorem p1Fold_some_of_end :
    ∀ (ops : List SinkOp) (r : P1ResSt) (p : Option SinkResponse),
      (∃ op ∈ ops, isEndOp op = true) →
      ∃ v, (ops.foldl part001PostStep (r, p)).2 = some v
  | [], _, _, h => absurd h (by simp)
  | op :: rest, r, p, h => by
    by_cases hend : ∃ x ∈ rest, isEndOp x = true
    · exact p1Fold_some_of_end rest _ _ hend
    · have hop : isEndOp op = true := by
        rcases h with ⟨x, hx, hxe⟩
        rcases List.mem_cons.mp hx with rfl | hx2
        · exact hxe
        · exact absurd ⟨x, hx2, hxe⟩ hend
      cases op with
      | endOp d =>
        cases p with
        | none =>
          exact ⟨_, p1Fold_settled rest _ _⟩
        | some v =>
          exact ⟨v, p1Fold_settled rest _ v⟩
      | setHeader k w => cases hop
      | writeHead s hs => cases hop
      | write c => cases hop

/-! ## Claim C3 — a rejection before completion must still settle the future -/

/-- C3 (the code defect, evaluated).  With a transport whose
`handleRequest` rejects before ever signalling completion, the
`src/index.ts` adapter — which attaches no rejection handler inside the
promise executor — leaves the future pending forever (`none`), for an empty
trace and for a trace of non-completion writes alike; the `part_001`
adapter resolves the fixed 500 internal-error response as the claim
requires. -/
theorem c3_reject_before_end :
    indexAdapterRun [] true = none ∧
    indexAdapterRun [SinkOp.writeHead 202 [], SinkOp.write "x"] true = none ∧
    part001AdapterRun [] true = some p1ErrorResponse ∧
    part001AdapterRun [SinkOp.writeHead 202 [], SinkOp.write "x"] true =
      some p1ErrorResponse :=
  ⟨rfl, rfl, rfl, rfl⟩

/-! ## Claim C5 — the future settles exactly once, first completion wins -/

/-- C5 (amended).  The future settles exactly once with the value fixed by
the first completion: in `src/index.ts`, a trace whose first `end` carries
`d` resolves the response built from the `res` state at that moment, later
sink calls never change a settled future, and a rejection of the driving
call has no effect on the future at all; in `part_001` a rejection after a
completion signal is likewise a no-op.  (In `part_002` later `end` calls
additionally mutate the response context — see the counterexample.) -/
theorem c5_settle_once_amended :
    (∀ (pre : List SinkOp) (d : Option String) (suf : List SinkOp)
       (rej : Bool), (∀ op ∈ pre, isEndOp op = false) →
       indexAdapterRun (pre ++ SinkOp.endOp d :: suf) rej =
         some (mkIndexResponse
           (pre.foldl indexPostStep (initIndexRes, none)).1 d)) ∧
    (∀ (ops : List SinkOp) (r : IndexResSt) (v : SinkResponse),
       (ops.foldl indexPostStep (r, some v)).2 = some v) ∧
    (∀ ops : List SinkOp, indexAdapterRun ops true = indexAdapterRun ops false) ∧
    (∀ ops : List SinkOp, (∃ op ∈ ops, isEndOp op = true) →
       part001AdapterRun ops true = part001AdapterRun ops false) := by
  refine ⟨?_, indexFold_settled, fun ops => rfl, ?_⟩
  · intro pre d suf rej hpre
    show (List.foldl indexPostStep (initIndexRes, none)
      (pre ++ SinkOp.endOp d :: suf)).2 = _
    rw [List.foldl_append, indexFold_pending pre initIndexRes hpre]
    rw [List.foldl_cons]
    exact indexFold_settled suf _ _
  · intro ops h
    rcases p1Fold_some_of_end ops initP1Res none h with ⟨v, hv⟩
    show resolveOnce (ops.foldl part001PostStep (initP1Res, none)).2 p1ErrorResponse =
      (ops.foldl part001PostStep (initP1Res, none)).2
    rw [hv]
    rfl

/-- Counterexample for C5 as frozen: in the `part_002` adapter a second
`end` call after a `writeHead 500` still runs the original `end` body and
overwrites the context status the framework will use — a later signal with
an observable effect — although the promise keeps the first value. -/
theorem c5_settle_once_cex :
    (part002PostRun jsonParseModel
      [SinkOp.endOp (some "a"), SinkOp.writeHead 500 [],
       SinkOp.endOp (some "b")]).resolved = some (HandlerBody.text "a") ∧
    (part002PostRun jsonParseModel
      [SinkOp.endOp (some "a"), SinkOp.writeHead 500 [],
       SinkOp.endOp (some "b")]).ctxStatus = 500 ∧
    (part002PostRun jsonParseModel [SinkOp.endOp (some "a")]).ctxStatus = 200 ∧
    ¬ ((500 : Nat) = 200) :=
  ⟨rfl, rfl, rfl, by decide⟩

/-- Witness for C5 (amended): an immediate completion with `x` followed by
a second completion with `y` resolves the response carrying `x`. -/
theorem c5_settle_once_amended_witness :
    (∀ op ∈ ([] : List SinkOp), isEndOp op = false) ∧
    indexAdapterRun ([] ++ SinkOp.endOp (some "x") :: [SinkOp.endOp (some "y")]) true =
      some (mkIndexResponse
        (List.foldl indexPostStep (initIndexRes, none) []).1 (some "x")) :=
  ⟨fun op h => absurd h (List.not_mem_nil op),
    c5_settle_once_amended.1 [] (some "x") [SinkOp.endOp (some "y")] true
      (fun op h => absurd h (List.not_mem_nil op))⟩

/-! ## Claim C2 — DELETE `/mcp` response status -/

/-- C2 (amended).  In `src/index.ts` every DELETE `/mcp` call — absent,
unknown or active session alike — answers 200; in the `part_000` variant a
call whose session header is falsy or names no registered session answers
400 instead. -/
theorem c2_delete_status_amended :
    (∀ (τ : Type) (sessions : List (String × τ)) (sid : Option String),
       (deleteMcpIndex sessions sid).status = 200) ∧
    (∀ (τ : Type) (jp : String → Option Json) (sessions : List (String × τ))
       (sid : Option String) (ops : List SinkOp),
       sidTruthy sid = false ∨ lookupSession sessions (sidString sid) = none →
       (part0DeleteMcp jp sessions sid ops).status = 400) := by
  constructor
  · intro τ sessions sid
    rw [deleteMcpIndex]
    split <;> rfl
  · intro τ jp sessions sid ops h
    rw [part0DeleteMcp]
    rcases h with h | h
    · rw [h]
      rfl
    · rw [h]
      simp
  
/-- Counterexample for C2 as frozen: a `part_000` DELETE call with the
session header absent answers 400, not 200. -/
theorem c2_delete_status_cex :
    (part0DeleteMcp jsonParseModel ([] : List (String × Unit)) none []).status = 400 ∧
    ¬ ((part0DeleteMcp jsonParseModel ([] : List (String × Unit)) none []).status = 200) :=
  ⟨rfl, by decide⟩

/-- Witness for C2 (amended) at the absent-header call on an empty
registry. -/
theorem c2_delete_status_amended_witness :
    (sidTruthy (none : Option String) = false ∨
      lookupSession ([] : List (String × Unit)) (sidString none) = none) ∧
    (part0DeleteMcp jsonParseModel ([] : List (String × Unit)) none []).status = 400 :=
  ⟨Or.inl rfl,
    c2_delete_status_amended.2 Unit jsonParseModel [] none [] (Or.inl rfl)⟩

/-! ## Claim C4 — DELETE on a registered session -/

/-- C4 (amended).  On a DELETE naming a registered session, `src/index.ts`
removes the session and answers a bare 200 acknowledgment without touching
the transport; the `part_000` variant also removes the session but then
forwards the DELETE into `transport.handleRequest`. -/
theorem c4_delete_termination_amended :
    (∀ (τ : Type) (sessions : List (String × τ)) (sid : Option String) (t : τ),
       sidTruthy sid = true → lookupSession sessions (sidString sid) = some t →
       deleteMcpIndex sessions sid =
         ⟨removeSession sessions (sidString sid), 200, HandlerBody.text "", false⟩) ∧
    (∀ (τ : Type) (jp : String → Option Json) (sessions : List (String × τ))
       (sid : Option String) (t : τ) (ops : List SinkOp),
       sidTruthy sid = true → lookupSession sessions (sidString sid) = some t →
       (part0DeleteMcp jp sessions sid ops).sessionsAfter =
         removeSession sessions (sidString sid) ∧
       (part0DeleteMcp jp sessions sid ops).transportInvoked = true) := by
  constructor
  · intro τ sessions sid t h1 h2
    rw [deleteMcpIndex, if_pos (by rw [h1, h2]; rfl)]
  · intro τ jp sessions sid t ops h1 h2
    rw [part0DeleteMcp, if_pos (by rw [h1, h2]; rfl)]
    exact ⟨rfl, rfl⟩

/-- Counterexample for C4 as frozen: on a registered session the
`part_000` DELETE handler does invoke `transport.handleRequest` (the
`src/index.ts` handler does not, for contrast). -/
theorem c4_delete_no_forward_cex :
    (part0DeleteMcp jsonParseModel [("s", ())] (some "s") []).transportInvoked = true ∧
    (deleteMcpIndex [("s", ())] (some "s")).transportInvoked = false :=
  ⟨rfl, rfl⟩

/-- Witness for C4 (amended) at a one-session registry. -/
theorem c4_delete_termination_amended_witness :
    sidTruthy (some "s") = true ∧
    lookupSession [("s", ())] (sidString (some "s")) = some () ∧
    deleteMcpIndex [("s", ())] (some "s") =
      ⟨removeSession [("s", ())] (sidString (some "s")), 200,
       HandlerBody.text "", false⟩ :=
  ⟨rfl, rfl,
    c4_delete_termination_amended.1 Unit [("s", ())] (some "s") () rfl rfl⟩

/-- Character-level string-leading test (kernel-reducible form of
`String.startsWith`). -/
def leadsChars : List Char → List Char → Bool
  | [], _ => true
  | _ :: _, [] => false
  | c :: cs, d :: ds => c == d && leadsChars cs ds

/-- Model of `s.startsWith pre` on the character model. -/
def msgLeads (pre s : String) : Bool :=
  leadsChars pre.toList s.toList

/-! ## Claim C6 — the fixed 400 JSON-RPC rejection -/

/-- C6.  A POST `/mcp` call whose session header is falsy or names no
registered session, with a body that is not an initialization request, is
rejected with status 400 and the fixed JSON-RPC envelope
(`jsonrpc` 2.0, code −32000, message starting `Bad Request`, `id` null) in
both the `src/index.ts` and `part_000` variants, and the session registry
is returned unchanged. -/
theorem c6_bad_request_envelope :
    (∀ (τ : Type) (sessions : List (String × τ)) (sid : Option String)
       (isInitReq : Bool) (ops : List SinkOp) (rejects : Bool) (newT : τ)
       (initId : Option String),
       sidTruthy sid = false ∨ lookupSession sessions (sidString sid) = none →
       isInitReq = false →
       postMcpIndex sessions sid isInitReq ops rejects newT initId =
         (sessions, PostOutcome.reject 400 badRequestEnvIndex)) ∧
    (∀ (τ : Type) (jp : String → Option Json) (sessions : List (String × τ))
       (sid : Option String) (isInitReq : Bool) (ops : List SinkOp) (newT : τ)
       (initId : Option String),
       sidTruthy sid = false ∨ lookupSession sessions (sidString sid) = none →
       isInitReq = false →
       postMcpPart0 jp sessions sid isInitReq ops newT initId =
         (sessions, PostOutcome.reject 400 badRequestEnvPart0)) ∧
    (badRequestEnvIndex.jsonrpc = "2.0" ∧ badRequestEnvIndex.errCode = -32000 ∧
      badRequestEnvIndex.id = none ∧
      msgLeads "Bad Request" badRequestEnvIndex.errMessage = true) ∧
    (badRequestEnvPart0.jsonrpc = "2.0" ∧ badRequestEnvPart0.errCode = -32000 ∧
      badRequestEnvPart0.id = none ∧
      msgLeads "Bad Request" badRequestEnvPart0.errMessage = true) := by
  refine ⟨?_, ?_, ⟨rfl, rfl, rfl, rfl⟩, ⟨rfl, rfl, rfl, rfl⟩⟩
  · intro τ sessions sid isInitReq ops rejects newT initId h hInit
    subst hInit
    rw [postMcpIndex.eq_def]
    rcases h with h | h
    · cases hl : lookupSession sessions (sidString sid) with
      | none => simp [h, hl]
      | some t => simp [h, hl]
    · simp [h]
  · intro τ jp sessions sid isInitReq ops newT initId h hInit
    subst hInit
    rw [postMcpPart0.eq_def]
    rcases h with h | h
    · cases hl : lookupSession sessions (sidString sid) with
      | none => simp [h, hl]
      | some t => simp [h, hl]
    · simp [h]

/-- Witness for C6 at the absent-header, non-initialization call on an
empty registry. -/
theorem c6_bad_request_envelope_witness :
    (sidTruthy (none : Option String) = false ∨
      lookupSession ([] : List (String × Unit)) (sidString none) = none) ∧
    postMcpIndex ([] : List (String × Unit)) none false [] false () none =
      ([], PostOutcome.reject 400 badRequestEnvIndex) :=
  ⟨Or.inl rfl,
    c6_bad_request_envelope.1 Unit [] none false [] false () none
      (Or.inl rfl) rfl⟩
